import Mathlib

/-!
Shallow embedding of the LSEG stock-predictor pipeline
(`src/main.py`, `src/predictor.py`).

Conventions of the embedding:
  * Python floats are modelled as rationals (`ℚ`); every arithmetic step the
    predictor performs (subtraction, halving, quartering) is exact on the
    values appearing in the spec's scenarios.
  * A pandas `DataFrame` loaded from one csv file is a list of rows together
    with its integer index.
  * `randrange(a, b)` is modelled by its support predicate plus the emptiness
    test under which CPython raises `ValueError`; the drawn position is an
    explicit parameter constrained to that support.
  * Fallible Python code (uncaught exceptions) returns `Except String`.
  * Filesystem paths discovered by `glob` are passed in as the list of their
    path components relative to the data directory, mirroring
    `_csv[dd_length:].split(os.sep)`.
-/

/-- The `PREDICTION_DATA_POINTS` constant of `main.py` (window length). -/
def PREDICTION_DATA_POINTS : Nat := 10

/-- One csv row: `Ticker, Timestamp (dd-mm-yyyy string), Value`. -/
structure Row where
  ticker : String
  timestamp : String
  value : ℚ
deriving DecidableEq, Repr

/-- A pandas dataframe for this pipeline: rows plus their index. -/
structure DataFrame where
  rows : List Row
  index : List Nat
deriving DecidableEq, Repr

/-- Positional slice `df.iloc[a:b]` (rows and index both sliced). -/
def dfIloc (df : DataFrame) (a b : Nat) : DataFrame :=
  { rows := (df.rows.drop a).take (b - a),
    index := (df.index.drop a).take (b - a) }

/-- Model of `df.reset_index(drop=True)`: the index becomes `0,1,...,len-1`. -/
def resetIndexDrop (df : DataFrame) : DataFrame :=
  { rows := df.rows, index := List.range df.rows.length }

/-- Support of Python's `randrange(a, b)`: the drawn value lies in `[a, b)`. -/
def randrangeSupports (a b r : Int) : Bool :=
  decide (a ≤ r) && decide (r < b)

/-- Python's `randrange(a, b)` raises `ValueError: empty range for randrange`
exactly when `b ≤ a`. -/
def randrangeEmpty (a b : Int) : Bool :=
  decide (b ≤ a)

/-- The `extract_stock_data_subset` function (main.py lines 92-101), value level.
`r` is the position drawn by `randrange(0, stock_data_size - 10)`; the caller
constrains it with `randrangeSupports`.  When the randrange range is empty the
uncaught `ValueError` is returned as an error. -/
def extract_stock_data_subset (stock_data_df : DataFrame) (r : Int) :
    Except String DataFrame :=
  let stock_data_size := stock_data_df.rows.length
  if randrangeEmpty 0 ((stock_data_size : Int) - (PREDICTION_DATA_POINTS : Int)) then
    .error "ValueError: empty range for randrange"
  else
    let random_df_position := r.toNat
    let stock_data_subset :=
      dfIloc stock_data_df random_df_position
        (random_df_position + PREDICTION_DATA_POINTS)
    .ok (resetIndexDrop stock_data_subset)

/-- The same `extract_stock_data_subset`, but run over an explicit object store
(list of dataframe objects, referenced by position) so that the in-place
mutation of `reset_index(drop=True, inplace=True)` is visible: `.copy()`
allocates a fresh object at the end of the store and the in-place reset hits
only that fresh object.  Returns the updated store and the reference of the
subset. -/
def extract_stock_data_subsetH (store : List DataFrame) (ref : Nat) (r : Int) :
    Except String (List DataFrame × Nat) :=
  match store[ref]? with
  | none => .error "invalid reference"
  | some stock_data_df =>
    let stock_data_size := stock_data_df.rows.length
    if randrangeEmpty 0 ((stock_data_size : Int) - (PREDICTION_DATA_POINTS : Int)) then
      .error "ValueError: empty range for randrange"
    else
      let random_df_position := r.toNat
      let viewed :=
        dfIloc stock_data_df random_df_position
          (random_df_position + PREDICTION_DATA_POINTS)
      let store1 := store ++ [viewed]
      let cref := store.length
      let store2 := store1.set cref (resetIndexDrop viewed)
      .ok (store2, cref)

/-- Model of `Series.sort_values(ascending=False)` on the Value column: the values in
descending order.  (The value found at any position is independent of the
sorting algorithm, so a stable insertion sort models it.) -/
def sort_values_desc (l : List ℚ) : List ℚ :=
  List.insertionSort (fun a b => b ≤ a) l

/-- The `BasicPredictor.predict` method (predictor.py lines 13-36).
`n[0] = iloc[-1]` (last value), `n[1] = sort_values(ascending=False).iloc[1]`
(second highest), `n[2] = n[1] + (n[1]-n[0])/2`, `n[3] = n[2] + (n[2]-n[1])/4`,
then `n.pop(0)`.  The two `iloc` accesses raise `IndexError` on inputs that
are too short; there is no length validation. -/
def BasicPredictor.predict (input_data_df : List ℚ) : Except String (List ℚ) :=
  match input_data_df.getLast? with
  | none => .error "IndexError"
  | some n0 =>
    match (sort_values_desc input_data_df)[1]? with
    | none => .error "IndexError"
    | some second_hightest_value =>
      let n1 := second_hightest_value
      let difference1 := n1 - n0
      let n2 := n1 + difference1 / 2
      let difference2 := n2 - n1
      let n3 := n2 + difference2 / 4
      .ok [n1, n2, n3]

/-- Gregorian leap-year test (as used by Python's `datetime`). -/
def isLeapYear (y : Nat) : Bool :=
  (y % 4 == 0 && y % 100 != 0) || y % 400 == 0

/-- Number of days of month `m` in year `y`. -/
def daysInMonth (y m : Nat) : Nat :=
  if m = 2 then (if isLeapYear y then 29 else 28)
  else if m = 4 ∨ m = 6 ∨ m = 9 ∨ m = 11 then 30
  else 31

/-- A calendar date, as held by a Python `datetime` here. -/
structure Date where
  day : Nat
  month : Nat
  year : Nat
deriving DecidableEq, Repr

/-- The calendar day after `d`. -/
def nextDay (d : Date) : Date :=
  if d.day < daysInMonth d.year d.month then { d with day := d.day + 1 }
  else if d.month < 12 then { day := 1, month := d.month + 1, year := d.year }
  else { day := 1, month := 1, year := d.year + 1 }

/-- Model of `d + timedelta(days=n)`. -/
def addDays (d : Date) : Nat → Date
  | 0 => d
  | n + 1 => nextDay (addDays d n)

/-- Zero-pad a number to `width` digits. -/
def padNum (width n : Nat) : String :=
  let s := toString n
  if s.length < width then String.mk (List.replicate (width - s.length) '0') ++ s
  else s

/-- Model of `datetime.strftime` with format `%d-%m-%Y`. -/
def strftimeDMY (d : Date) : String :=
  padNum 2 d.day ++ "-" ++ padNum 2 d.month ++ "-" ++ padNum 4 d.year

/-- Model of `datetime.strptime` with format `%d-%m-%Y`: three dash-separated numeric fields
forming a valid calendar date; `none` models the `ValueError` raised on any
other shape. -/
def strptimeDMY (s : String) : Option Date :=
  match s.splitOn "-" with
  | [ds, ms, ys] =>
    match ds.toNat?, ms.toNat?, ys.toNat? with
    | some dd, some mm, some yy =>
      if 1 ≤ mm ∧ mm ≤ 12 ∧ 1 ≤ dd ∧ dd ≤ daysInMonth yy mm then
        some { day := dd, month := mm, year := yy }
      else none
    | _, _, _ => none
  | _ => none

/-- The `prepare_prediction_df` function (main.py lines 104-127): parse the window's last
timestamp, build one forecast row per predicted value with timestamp advanced
by `i+1` days and the window's first ticker, and concatenate window rows with
forecast rows (`pd.concat`, original order, index preserved on the window part
and `0..len(prediction)-1` on the forecast part). -/
def prepare_prediction_df (stock_data_subset : DataFrame) (prediction : List ℚ) :
    Except String DataFrame :=
  let prediction_length := prediction.length
  match stock_data_subset.rows.getLast? with
  | none => .error "IndexError"
  | some lastRow =>
    match strptimeDMY lastRow.timestamp with
    | none => .error "ValueError: time data does not match format"
    | some last_timestamp_dt =>
      match stock_data_subset.rows.head? with
      | none => .error "IndexError"
      | some firstRow =>
        let new_rows :=
          ((List.range prediction_length).zip prediction).map fun iv =>
            { ticker := firstRow.ticker,
              timestamp := strftimeDMY (addDays last_timestamp_dt (iv.1 + 1)),
              value := iv.2 : Row }
        .ok { rows := stock_data_subset.rows ++ new_rows,
              index := stock_data_subset.index ++ List.range prediction_length }

/-- A discovered csv path, as its components relative to the data directory
(the result of `_csv[dd_length:].split(os.sep)`). -/
abbrev CsvPath := List String

/-- Python's `needle in haystack` substring test on character lists (Python's substring test). -/
def listContains (needle : List Char) : List Char → Bool
  | [] => needle.isEmpty
  | c :: t => needle.isPrefixOf (c :: t) || listContains needle t

/-- The test `"Prediction_" in csv_filename` (main.py line 79). -/
def containsPredictionMarker (csv_filename : String) : Bool :=
  listContains "Prediction_".toList csv_filename.toList

/-- Ordered dictionary used by `_filter_csv_list`: exchange name to the csv
paths appended for it, in insertion order. -/
abbrev ExchangeDict := List (String × List CsvPath)

/-- Model of `_exchange_stock_dict[exchange].append(c)` on a Python (insertion-ordered)
defaultdict: append into the existing group, or add a new group at the end. -/
def insertGrouped (d : ExchangeDict) (exchange : String) (c : CsvPath) : ExchangeDict :=
  match d with
  | [] => [(exchange, [c])]
  | (k, v) :: rest =>
    if k = exchange then (k, v ++ [c]) :: rest
    else (k, v) :: insertGrouped rest exchange c

/-- One iteration of the candidate loop of `_filter_csv_list` (lines 70-81):
skip paths that are not exactly `exchange/filename`, skip filenames containing
`"Prediction_"`, and append everything else into its exchange's group. -/
def filterStep (d : ExchangeDict) (p : CsvPath) : ExchangeDict :=
  match p with
  | [exchange, csv_filename] =>
    if containsPredictionMarker csv_filename then d
    else insertGrouped d exchange [exchange, csv_filename]
  | _ => d

/-- The `_filter_csv_list` function (main.py lines 65-89): group the structurally valid,
non-output candidates by exchange, truncate each group to
`input_file_count`, and chain the groups' values. -/
def filter_csv_list (csv_list : List CsvPath) (input_file_count : Nat) : List CsvPath :=
  let grouped := csv_list.foldl filterStep []
  (grouped.map (fun kv => kv.2.take input_file_count)).flatten

/-- A path survives the structural and output-marker filters of
`_filter_csv_list` (it is a candidate). -/
def isCandidate (p : CsvPath) : Bool :=
  match p with
  | [_, csv_filename] => !containsPredictionMarker csv_filename
  | _ => false

/-- The candidates of exchange `e` among the discovered paths, in enumeration
order. -/
def candidatesFor (e : String) (csv_list : List CsvPath) : List CsvPath :=
  csv_list.filter fun p => isCandidate p && (p.head? == some e)

/-- Lookup of a group in the ordered dictionary (`[]` when absent). -/
def lookupG (e : String) : ExchangeDict → List CsvPath
  | [] => []
  | (k, v) :: rest => if k = e then v else lookupG e rest

/-- Python `s.replace(old, new)` on characters (all occurrences, left to
right, non-overlapping); the fuel argument is the length of the remaining
text, consumed one unit per examined position. -/
def replaceAllAux (old new : List Char) : Nat → List Char → List Char
  | 0, s => s
  | _ + 1, [] => []
  | fuel + 1, c :: t =>
    if old.isPrefixOf (c :: t) then
      new ++ replaceAllAux old new fuel (t.drop (old.length - 1))
    else c :: replaceAllAux old new fuel t

/-- Python `s.replace(old, new)` for non-empty `old`. -/
def pythonReplace (s old new : String) : String :=
  if old.isEmpty then s
  else String.mk (replaceAllAux old.toList new.toList s.toList.length s.toList)

/-- Output path built by `generate_basic_prediction` (main.py lines 138-141):
`csv_path.replace('.csv', '_BasicPrediction_' + TIMESTAMP + '.csv')`. -/
def bp_csv_path (csv_path ts : String) : String :=
  pythonReplace csv_path ".csv" ("_BasicPrediction_" ++ ts ++ ".csv")

/-- The parsed command-line arguments. -/
structure Args where
  input_file_count : Int
  data_directory_path : String
deriving Repr

/-- The `_validate_arguments` function (main.py lines 52-60).  The existence check runs
only under `if args.data_directory_path:`, i.e. when the path string is
non-empty (Python truthiness); `pathExists` models `os.path.exists`. -/
def validate_arguments (args : Args) (pathExists : String → Bool) : Bool × String :=
  if args.input_file_count < 1 ∨ args.input_file_count > 2 then
    (false, "Invalid file count [1-2]: " ++ toString args.input_file_count)
  else if args.data_directory_path ≠ "" ∧ pathExists args.data_directory_path = false then
    (false, "Data directory not found: " ++ args.data_directory_path)
  else
    (true, "Arguments are valid")

/-- Outcome of the validation phase of `app` (main.py lines 188-206). -/
inductive AppOutcome
  | aborted (message : String)
  | proceeded (csv_list : List CsvPath)
deriving DecidableEq, Repr

/-- Validation-and-selection phase of `app`: on invalid arguments the run
returns before any enumeration; otherwise the discovered paths (the external
`glob` result) are filtered and the per-file loop runs on them. -/
def app_validation_phase (args : Args) (pathExists : String → Bool)
    (discovered : List CsvPath) : AppOutcome :=
  let vm := validate_arguments args pathExists
  if vm.1 = false then .aborted vm.2
  else .proceeded (filter_csv_list discovered args.input_file_count.toNat)

/-- A line written to the log stream. -/
inductive LogEntry
  | infoLog (message : String)
  | errorLog (message : String)
deriving DecidableEq, Repr

/-- The `generate_basic_prediction` function (main.py lines 129-142): sample the subset,
predict from its Value column, assemble the output dataframe, and name the
output file.  `r` is the randrange draw, `ts` the run's `TIMESTAMP`.  Any
uncaught exception of a step propagates. -/
def generate_basic_prediction (csv_path : String) (stock_data_df : DataFrame)
    (r : Int) (ts : String) : Except String (String × DataFrame) := do
  let stock_data_subset ← extract_stock_data_subset stock_data_df r
  let prediction ← BasicPredictor.predict (stock_data_subset.rows.map (·.value))
  let result_df ← prepare_prediction_df stock_data_subset prediction
  .ok (bp_csv_path csv_path ts, result_df)

/-- The per-file loop of `app` (main.py lines 211-227), over the already
loaded dataframes.  For each file it logs the info line, logs an error when
the file has fewer than `PREDICTION_DATA_POINTS` rows — and then calls
`generate_basic_prediction` regardless (there is no `continue`).  An
exception escaping `generate_basic_prediction` is uncaught: it aborts the
loop, and the remaining files are never processed.  Returns the log lines
written up to that point together with either the outputs of all files or the
uncaught exception. -/
def app_file_loop (files : List (String × DataFrame)) (draw : String → Int)
    (ts : String) : List LogEntry × Except String (List (String × DataFrame)) :=
  match files with
  | [] => ([], .ok [])
  | (csv_path, stock_data_df) :: rest =>
    let logs0 := [LogEntry.infoLog ("Running prediction for " ++ csv_path ++ "...")]
    let logs1 :=
      if stock_data_df.rows.length < PREDICTION_DATA_POINTS then
        logs0 ++ [LogEntry.errorLog "CSV File doesn't have enough data points"]
      else logs0
    match generate_basic_prediction csv_path stock_data_df (draw csv_path) ts with
    | .error e => (logs1, .error e)
    | .ok out =>
      let (logsRest, res) := app_file_loop rest draw ts
      (logs1 ++ logsRest, res.map (fun outs => out :: outs))

/-- Concrete sample row `i`: ticker `TCS`, timestamp day `i+1` of January
2021, value `i+1`. -/
def sampleRow (i : Nat) : Row :=
  { ticker := "TCS", timestamp := padNum 2 (i + 1) ++ "-01-2021", value := (i + 1 : ℚ) }

/-- Concrete sample dataframe with `n` rows. -/
def mkDf (n : Nat) : DataFrame :=
  { rows := (List.range n).map sampleRow, index := List.range n }

instance : IsTotal ℚ (fun a b => b ≤ a) := ⟨fun a b => le_total b a⟩

instance : IsTrans ℚ (fun a b => b ≤ a) := ⟨fun _ _ _ hab hbc => le_trans hbc hab⟩

theorem sort_values_desc_length (l : List ℚ) :
    (sort_values_desc l).length = l.length :=
  List.length_insertionSort _ l

theorem sort_values_desc_perm (l : List ℚ) :
    (sort_values_desc l).Perm l :=
  List.perm_insertionSort _ l

theorem sort_values_desc_sorted (l : List ℚ) :
    List.Sorted (fun a b => b ≤ a) (sort_values_desc l) :=
  List.sorted_insertionSort _ l

/-- In the descending-sorted list of a window whose maximum is tied (count of
the maximum at least 2), position 1 still holds the maximum. -/
theorem sort_values_desc_getElem_one_of_tie (w : List ℚ) (M : ℚ)
    (hlen : 2 ≤ w.length) (hub : ∀ x ∈ w, x ≤ M) (hcount : 2 ≤ w.count M) :
    (sort_values_desc w)[1]? = some M := by
  have hperm : (sort_values_desc w).Perm w := sort_values_desc_perm w
  have hsorted := sort_values_desc_sorted w
  have hlens : 2 ≤ (sort_values_desc w).length := by
    rw [sort_values_desc_length]; exact hlen
  obtain ⟨a, b, l', hsl⟩ :
      ∃ a b l', sort_values_desc w = a :: b :: l' := by
    cases hS : sort_values_desc w with
    | nil => rw [hS] at hlens; simp at hlens
    | cons a t =>
      cases t with
      | nil => rw [hS] at hlens; simp at hlens
      | cons b l' => exact ⟨a, b, l', rfl⟩
  rw [hsl] at hperm hsorted
  have hbmem : b ∈ w := hperm.mem_iff.mp (by simp)
  have hbM : b ≤ M := hub b hbmem
  have hMb : M ≤ b := by
    by_cases hbeq : b = M
    · exact le_of_eq hbeq.symm
    · have hcount_s : 2 ≤ (a :: b :: l').count M := by
        rw [hperm.count_eq M]; exact hcount
      have hb_false : (b == M) = false := beq_eq_false_iff_ne.mpr hbeq
      have h1 : (b :: l').count M = l'.count M := by
        rw [List.count_cons, hb_false]; simp
      have h2 : (a :: b :: l').count M ≤ (b :: l').count M + 1 := by
        rw [List.count_cons]; split <;> omega
      have hl'pos : 0 < l'.count M := by omega
      have hMl' : M ∈ l' := List.count_pos_iff.mp hl'pos
      have hbl' : ∀ x ∈ l', x ≤ b :=
        (List.sorted_cons.mp (List.sorted_cons.mp hsorted).2).1
      exact hbl' M hMl'
  rw [hsl]
  have : b = M := le_antisymm hbM hMb
  simp [this]

/-- Unfolding of `predict` once its two `iloc` accesses are known to hit. -/
theorem predict_eq_of_getLast_sort (vals : List ℚ) (n0 p1 : ℚ)
    (hlast : vals.getLast? = some n0)
    (hsort : (sort_values_desc vals)[1]? = some p1) :
    BasicPredictor.predict vals =
      .ok [p1, p1 + (p1 - n0) / 2,
           p1 + (p1 - n0) / 2 + (p1 + (p1 - n0) / 2 - p1) / 4] := by
  unfold BasicPredictor.predict
  rw [hlast, hsort]

/-- C3: for every window of exactly 10 values, `BasicPredictor.predict`
returns exactly `[p1, p2, p3]` where `p1` is the value at descending-sorted
position 1, `p2 = p1 + (p1 - values[9])/2` and `p3 = p2 + (p2 - p1)/4`; in
particular the window `[1,...,10]` yields `[9, 8.5, 8.375]`. -/
theorem predict_three_step_formula :
    (∀ (vals : List ℚ) (p1 last : ℚ), vals.length = 10 →
        (sort_values_desc vals)[1]? = some p1 → vals[9]? = some last →
        BasicPredictor.predict vals =
          .ok [p1, p1 + (p1 - last) / 2,
               p1 + (p1 - last) / 2 + (p1 + (p1 - last) / 2 - p1) / 4]) ∧
    BasicPredictor.predict [1,2,3,4,5,6,7,8,9,10] = .ok [9, 8.5, 8.375] := by
  constructor
  · intro vals p1 last hlen hsort hidx
    have hlast : vals.getLast? = some last := by
      rw [List.getLast?_eq_getElem?, hlen]
      exact hidx
    exact predict_eq_of_getLast_sort vals last p1 hlast hsort
  · with_unfolding_all rfl

/-- Witness for C3 at the concrete window `[2,4,...,20]`. -/
theorem predict_three_step_formula_witness :
    BasicPredictor.predict [2,4,6,8,10,12,14,16,18,20] =
      .ok [18, 18 + (18 - 20) / 2,
           18 + (18 - 20) / 2 + (18 + (18 - 20) / 2 - 18) / 4] :=
  predict_three_step_formula.1 [2,4,6,8,10,12,14,16,18,20] 18 20
    (by with_unfolding_all rfl) (by with_unfolding_all rfl)
    (by with_unfolding_all rfl)

/-- C4: when two or more of the 10 window values tie for the maximum, the
"second highest" (descending-sorted position 1) equals the maximum; and the
window `[10,12,11,13,9,14,15,8,20,18]` yields second-highest `18` and
forecast `[18, 18, 18]`. -/
theorem second_highest_tie_equals_max :
    (∀ (w : List ℚ) (M : ℚ), w.length = 10 → (∀ x ∈ w, x ≤ M) →
        2 ≤ w.count M → (sort_values_desc w)[1]? = some M) ∧
    (sort_values_desc [10,12,11,13,9,14,15,8,20,18])[1]? = some 18 ∧
    BasicPredictor.predict [10,12,11,13,9,14,15,8,20,18] = .ok [18, 18, 18] := by
  refine ⟨fun w M hlen hub hcount =>
    sort_values_desc_getElem_one_of_tie w M (by omega) hub hcount, ?_, ?_⟩
  · with_unfolding_all rfl
  · with_unfolding_all rfl

/-- Witness for C4 at a window whose maximum `5` appears twice. -/
theorem second_highest_tie_equals_max_witness :
    (sort_values_desc [5,5,1,1,1,1,1,1,1,1])[1]? = some 5 :=
  second_highest_tie_equals_max.1 [5,5,1,1,1,1,1,1,1,1] 5
    (by with_unfolding_all rfl) (by with_unfolding_all decide)
    (by with_unfolding_all decide)

/-- C5 counterexample: the window `[1,2,3,4,5]` has length 5 ≠ 10, yet
`BasicPredictor.predict` succeeds (returning a forecast) instead of failing
with `InvalidInput` — the predictor performs no length validation at all. -/
theorem predict_length_five_succeeds :
    BasicPredictor.predict [1,2,3,4,5] = .ok [4, 3.5, 3.375] := by
  with_unfolding_all rfl

/-- C5 (amended): `BasicPredictor.predict` performs no window-length check
and has no `InvalidInput` failure: it succeeds with exactly 3 values on every
input of length at least 2 (whatever the length), and fails — with an index
error, not `InvalidInput` — exactly on inputs of length below 2. -/
theorem predict_no_length_validation :
    ∀ vals : List ℚ,
      (2 ≤ vals.length →
        ∃ out, BasicPredictor.predict vals = .ok out ∧ out.length = 3) ∧
      (vals.length < 2 → BasicPredictor.predict vals = .error "IndexError") := by
  intro vals
  constructor
  · intro h2
    obtain ⟨n0, hlast⟩ : ∃ n0, vals.getLast? = some n0 := by
      rw [List.getLast?_eq_getElem?]
      have h : vals.length - 1 < vals.length := by omega
      exact ⟨_, List.getElem?_eq_getElem h⟩
    obtain ⟨p1, hsort⟩ : ∃ p1, (sort_values_desc vals)[1]? = some p1 := by
      have h1 : 1 < (sort_values_desc vals).length := by
        rw [sort_values_desc_length]; omega
      exact ⟨_, List.getElem?_eq_getElem h1⟩
    exact ⟨_, predict_eq_of_getLast_sort vals n0 p1 hlast hsort, rfl⟩
  · intro hlt
    rcases vals with _ | ⟨a, _ | ⟨b, t⟩⟩
    · rfl
    · rfl
    · simp at hlt; omega

/-- Witness for C5 (amended) at the length-3 input `[1,2,3]`. -/
theorem predict_no_length_validation_witness :
    2 ≤ ([1,2,3] : List ℚ).length ∧
    ∃ out, BasicPredictor.predict [1,2,3] = .ok out ∧ out.length = 3 :=
  ⟨by decide, (predict_no_length_validation [1,2,3]).1 (by decide)⟩

/-- C1 (code bug): `extract_stock_data_subset` draws its start from
`randrange(0, len - 10)`, an off-by-one against the intended inclusive range
`[0, len - 10]`.  Concretely: on a 10-row series the only valid window (start
0 = len - 10) is unreachable — `randrange(0, 0)` raises `ValueError` — even
though the caller's own guard treats 10 rows as sufficient; on an 11-row
series the start `1 = len - 10` is outside the support, while start 0
succeeds and returns the first 10 rows with a reset index. -/
theorem extract_subset_off_by_one :
    extract_stock_data_subset (mkDf 10) 0 =
      .error "ValueError: empty range for randrange" ∧
    randrangeEmpty 0 (((mkDf 10).rows.length : Int) - (PREDICTION_DATA_POINTS : Int))
      = true ∧
    randrangeSupports 0 (((mkDf 11).rows.length : Int) - (PREDICTION_DATA_POINTS : Int)) 1
      = false ∧
    extract_stock_data_subset (mkDf 11) 0 = .ok (mkDf 10) := by
  refine ⟨?_, ?_, ?_, ?_⟩ <;> with_unfolding_all rfl

/-- C2 (code bug): in the per-file loop a 5-row file is logged at error level
but not skipped (there is no `continue`); the prediction call that follows
raises an uncaught `ValueError`, the batch aborts, the remaining 12-row file
is never processed and no output is produced — while that remaining file on
its own would have been processed successfully. -/
theorem app_loop_short_file_aborts_batch :
    app_file_loop [("f1", mkDf 5), ("f2", mkDf 12)] (fun _ => 0) "TS" =
      ([LogEntry.infoLog "Running prediction for f1...",
        LogEntry.errorLog "CSV File doesn't have enough data points"],
       .error "ValueError: empty range for randrange") ∧
    (app_file_loop [("f2", mkDf 12)] (fun _ => 0) "TS").2.isOk = true := by
  refine ⟨?_, ?_⟩ <;> with_unfolding_all rfl

/-- C10: `extract_stock_data_subset` slices, then copies, and resets the
index only on the copy: over the explicit object store the caller's
dataframe object is unchanged by the call, the subset living at a fresh
reference. -/
theorem extract_subsetH_preserves_caller :
    ∀ (store : List DataFrame) (ref : Nat) (r : Int)
      (store2 : List DataFrame) (cref : Nat),
      extract_stock_data_subsetH store ref r = .ok (store2, cref) →
      store2[ref]? = store[ref]? ∧ cref = store.length := by
  intro store ref r store2 cref h
  unfold extract_stock_data_subsetH at h
  cases href : store[ref]? with
  | none => rw [href] at h; exact absurd h (by simp)
  | some df =>
    rw [href] at h
    by_cases hempty :
        randrangeEmpty 0 ((df.rows.length : Int) - (PREDICTION_DATA_POINTS : Int)) = true
    · simp only [hempty, if_true] at h
      exact absurd h (by simp)
    · simp only [hempty, if_false, Bool.false_eq_true] at h
      rw [Except.ok.injEq, Prod.mk.injEq] at h
      obtain ⟨hstore2, hcref⟩ := h
      have hlt : ref < store.length := by
        by_contra hge
        push_neg at hge
        rw [List.getElem?_eq_none hge] at href
        cases href
      subst hstore2 hcref
      refine ⟨?_, rfl⟩
      rw [List.getElem?_set_ne (by omega), List.getElem?_append]
      rw [if_pos hlt, href]

/-- Witness for C10 on a concrete single-object store holding a 12-row
dataframe. -/
theorem extract_subsetH_preserves_caller_witness :
    ([mkDf 12, resetIndexDrop (dfIloc (mkDf 12) 0 10)] : List DataFrame)[0]? =
      ([mkDf 12] : List DataFrame)[0]? ∧
    1 = ([mkDf 12] : List DataFrame).length :=
  extract_subsetH_preserves_caller [mkDf 12] 0 0
    [mkDf 12, resetIndexDrop (dfIloc (mkDf 12) 0 10)] 1 (by with_unfolding_all rfl)

/-- C6: for every 10-row window whose rows all carry ticker `t` and whose
last timestamp parses, and every 3-value forecast, `prepare_prediction_df`
returns the 10 window rows in original order followed by exactly 3 forecast
rows carrying ticker `t` and timestamps `last + 1, 2, 3` calendar days in the
`DD-MM-YYYY` format; nothing is reordered, dropped or deduplicated. -/
theorem prepare_prediction_structure :
    ∀ (subset : DataFrame) (t : String) (lastRow : Row) (d : Date) (p1 p2 p3 : ℚ),
      subset.rows.length = 10 →
      (∀ row ∈ subset.rows, row.ticker = t) →
      subset.rows.getLast? = some lastRow →
      strptimeDMY lastRow.timestamp = some d →
      prepare_prediction_df subset [p1, p2, p3] =
        .ok { rows := subset.rows ++
                [{ ticker := t, timestamp := strftimeDMY (addDays d 1), value := p1 },
                 { ticker := t, timestamp := strftimeDMY (addDays d 2), value := p2 },
                 { ticker := t, timestamp := strftimeDMY (addDays d 3), value := p3 }],
              index := subset.index ++ [0, 1, 2] } := by
  intro subset t lastRow d p1 p2 p3 hlen htick hlast hparse
  obtain ⟨firstRow, hhead⟩ : ∃ fr, subset.rows.head? = some fr := by
    cases hr : subset.rows with
    | nil => rw [hr] at hlen; simp at hlen
    | cons a l => exact ⟨a, rfl⟩
  have hft : firstRow.ticker = t :=
    htick _ (List.mem_of_mem_head? (Option.mem_def.mpr hhead))
  simp only [prepare_prediction_df, hlast, hparse, hhead, hft]
  rfl

/-- Witness for C6 on the concrete 10-row window `mkDf 10` (last timestamp
`10-01-2021`). -/
theorem prepare_prediction_structure_witness :
    prepare_prediction_df (mkDf 10) [9, 8.5, 8.375] =
      .ok { rows := (mkDf 10).rows ++
              [{ ticker := "TCS", timestamp := strftimeDMY (addDays ⟨10, 1, 2021⟩ 1),
                 value := 9 },
               { ticker := "TCS", timestamp := strftimeDMY (addDays ⟨10, 1, 2021⟩ 2),
                 value := 8.5 },
               { ticker := "TCS", timestamp := strftimeDMY (addDays ⟨10, 1, 2021⟩ 3),
                 value := 8.375 }],
            index := (mkDf 10).index ++ [0, 1, 2] } :=
  prepare_prediction_structure (mkDf 10) "TCS" (sampleRow 9) ⟨10, 1, 2021⟩ 9 8.5 8.375
    (by with_unfolding_all rfl) (by with_unfolding_all decide)
    (by with_unfolding_all rfl) (by with_unfolding_all rfl)

/-- C9 counterexample: with cap `2` and the empty-string data directory the
truthiness guard `if args.data_directory_path:` skips the existence check, so
validation passes and the run proceeds to enumeration even though the root
does not exist (`os.path.exists` is false on it) — the claim says every
configuration with a nonexistent root aborts. -/
theorem validate_empty_path_skips_existence_check :
    (fun _ => false : String → Bool) "" = false ∧
    (validate_arguments { input_file_count := 2, data_directory_path := "" }
        (fun _ => false)).1 = true ∧
    app_validation_phase { input_file_count := 2, data_directory_path := "" }
        (fun _ => false) [["A", "x.csv"]] = .proceeded [["A", "x.csv"]] := by
  refine ⟨rfl, rfl, ?_⟩
  with_unfolding_all rfl

/-- C9 (amended): a cap outside `{1, 2}` aborts the run before enumeration;
a non-empty root path that does not exist aborts it as well; with a cap in
`{1, 2}` and a root that exists — or an empty root path, whose existence is
never checked — validation passes and the per-file pipeline runs on the
filtered enumeration. -/
theorem app_validation_behaviour :
    ∀ (count : Int) (path : String) (pathExists : String → Bool)
      (discovered : List CsvPath),
      ((count < 1 ∨ 2 < count) →
        app_validation_phase { input_file_count := count, data_directory_path := path }
            pathExists discovered
          = .aborted ("Invalid file count [1-2]: " ++ toString count)) ∧
      (1 ≤ count → count ≤ 2 → path ≠ "" → pathExists path = false →
        app_validation_phase { input_file_count := count, data_directory_path := path }
            pathExists discovered
          = .aborted ("Data directory not found: " ++ path)) ∧
      (1 ≤ count → count ≤ 2 → (path = "" ∨ pathExists path = true) →
        app_validation_phase { input_file_count := count, data_directory_path := path }
            pathExists discovered
          = .proceeded (filter_csv_list discovered count.toNat)) := by
  intro count path pathExists discovered
  refine ⟨?_, ?_, ?_⟩
  · intro hbad
    have hcond : count < 1 ∨ count > 2 := by omega
    simp only [app_validation_phase, validate_arguments, if_pos hcond]
    simp
  · intro h1 h2 hne hnex
    have hcond : ¬(count < 1 ∨ count > 2) := by omega
    simp only [app_validation_phase, validate_arguments, if_neg hcond,
      if_pos (And.intro hne hnex)]
    simp
  · intro h1 h2 hok
    have hcond : ¬(count < 1 ∨ count > 2) := by omega
    have hcond2 : ¬(path ≠ "" ∧ pathExists path = false) := by
      rcases hok with h | h
      · intro hc; exact hc.1 h
      · intro hc; rw [h] at hc; exact absurd hc.2 (by simp)
    simp only [app_validation_phase, validate_arguments, if_neg hcond, if_neg hcond2]
    simp

/-- Witness for C9 (amended) at the concrete bad cap `5`. -/
theorem app_validation_behaviour_witness :
    app_validation_phase { input_file_count := 5, data_directory_path := "data/" }
        (fun _ => true) []
      = .aborted ("Invalid file count [1-2]: " ++ toString (5 : Int)) :=
  (app_validation_behaviour 5 "data/" (fun _ => true) []).1 (by omega)

theorem lookupG_insertGrouped_self (d : ExchangeDict) (e : String) (c : CsvPath) :
    lookupG e (insertGrouped d e c) = lookupG e d ++ [c] := by
  induction d with
  | nil => simp [insertGrouped, lookupG]
  | cons kv rest ih =>
    obtain ⟨k, v⟩ := kv
    by_cases hk : k = e
    · subst hk; simp [insertGrouped, lookupG]
    · simp [insertGrouped, lookupG, hk, ih]

theorem lookupG_insertGrouped_ne (d : ExchangeDict) (k : String) (c : CsvPath)
    (e : String) (h : k ≠ e) :
    lookupG e (insertGrouped d k c) = lookupG e d := by
  induction d with
  | nil => simp [insertGrouped, lookupG, h]
  | cons kv rest ih =>
    obtain ⟨k0, v0⟩ := kv
    by_cases hk0 : k0 = k
    · subst hk0; simp [insertGrouped, lookupG, h]
    · by_cases hk0e : k0 = e
      · subst hk0e; simp [insertGrouped, lookupG, hk0]
      · simp [insertGrouped, lookupG, hk0, hk0e, ih]

theorem lookupG_eq_nil_of_not_mem_keys (e : String) :
    ∀ d : ExchangeDict, e ∉ d.map Prod.fst → lookupG e d = [] := by
  intro d
  induction d with
  | nil => intro _; rfl
  | cons kv rest ih =>
    intro h
    obtain ⟨k, v⟩ := kv
    simp only [List.map_cons, List.mem_cons] at h
    push_neg at h
    have hk : k ≠ e := fun hek => h.1 hek.symm
    simp [lookupG, hk, ih h.2]

/-- The group of exchange `e` after the candidate loop is the groups it held
before plus, in order, the candidates of `e` among the processed paths. -/
theorem lookupG_foldl_filterStep (l : List CsvPath) :
    ∀ (d : ExchangeDict) (e : String),
      lookupG e (l.foldl filterStep d) = lookupG e d ++ candidatesFor e l := by
  induction l with
  | nil => intro d e; simp [candidatesFor]
  | cons p rest ih =>
    intro d e
    rw [List.foldl_cons, ih]
    rcases p with _ | ⟨x, _ | ⟨y, _ | ⟨z, t⟩⟩⟩
    · simp [filterStep, candidatesFor, isCandidate]
    · simp [filterStep, candidatesFor, isCandidate]
    · by_cases hm : containsPredictionMarker y = true
      · simp [filterStep, hm, candidatesFor, isCandidate]
      · have hm' : containsPredictionMarker y = false := by simpa using hm
        by_cases hx : x = e
        · subst hx
          simp only [filterStep, hm', Bool.false_eq_true, if_false,
            lookupG_insertGrouped_self]
          simp [candidatesFor, isCandidate, hm']
        · simp only [filterStep, hm', Bool.false_eq_true, if_false,
            lookupG_insertGrouped_ne d x _ e hx]
          simp [candidatesFor, isCandidate, hm', hx]
    · simp [filterStep, candidatesFor, isCandidate]

/-- Every path stored in a group carries that group's exchange as its first
component. -/
def GroupsHomo (d : ExchangeDict) : Prop :=
  ∀ kv ∈ d, ∀ p ∈ kv.2, p.head? = some kv.1

/-- The dictionary's keys are pairwise distinct. -/
def GroupsNodupKeys (d : ExchangeDict) : Prop :=
  (d.map Prod.fst).Nodup

/-- Every path stored in a group passed the structural and marker filters. -/
def GroupsCand (d : ExchangeDict) : Prop :=
  ∀ kv ∈ d, ∀ p ∈ kv.2, isCandidate p = true

theorem groupsHomo_insertGrouped (d : ExchangeDict) (k : String) (c : CsvPath)
    (hd : GroupsHomo d) (hc : c.head? = some k) :
    GroupsHomo (insertGrouped d k c) := by
  induction d with
  | nil =>
    intro kv hkv p hp
    simp only [insertGrouped, List.mem_singleton] at hkv
    subst hkv
    simp only [List.mem_singleton] at hp
    subst hp
    exact hc
  | cons kv0 rest ih =>
    obtain ⟨k0, v0⟩ := kv0
    have hrest : GroupsHomo rest := fun kv h => hd kv (List.mem_cons_of_mem _ h)
    by_cases hk : k0 = k
    · subst hk
      intro kv hkv p hp
      simp only [insertGrouped, if_pos rfl] at hkv
      rcases List.mem_cons.mp hkv with h | h
      · subst h
        simp only [List.mem_append, List.mem_singleton] at hp
        rcases hp with h | h
        · exact hd (k0, v0) (List.mem_cons_self _ _) p h
        · subst h; exact hc
      · exact hd kv (List.mem_cons_of_mem _ h) p hp
    · intro kv hkv p hp
      simp only [insertGrouped, if_neg hk] at hkv
      rcases List.mem_cons.mp hkv with h | h
      · subst h
        exact hd (k0, v0) (List.mem_cons_self _ _) p hp
      · exact ih hrest kv h p hp

theorem mem_keys_insertGrouped (d : ExchangeDict) (k : String) (c : CsvPath)
    (k' : String) (h : k' ∈ (insertGrouped d k c).map Prod.fst) :
    k' ∈ d.map Prod.fst ∨ k' = k := by
  induction d with
  | nil =>
    simp only [insertGrouped, List.map_cons, List.map_nil, List.mem_singleton] at h
    exact Or.inr h
  | cons kv0 rest ih =>
    obtain ⟨k0, v0⟩ := kv0
    by_cases hk : k0 = k
    · subst hk
      simp only [insertGrouped, if_pos rfl, List.map_cons] at h
      simp only [List.map_cons, List.mem_cons]
      rcases List.mem_cons.mp h with h | h
      · exact Or.inl (Or.inl h)
      · exact Or.inl (Or.inr h)
    · simp only [insertGrouped, if_neg hk, List.map_cons] at h
      simp only [List.map_cons, List.mem_cons]
      rcases List.mem_cons.mp h with h | h
      · exact Or.inl (Or.inl h)
      · rcases ih h with h2 | h2
        · exact Or.inl (Or.inr h2)
        · exact Or.inr h2

theorem groupsNodupKeys_insertGrouped (d : ExchangeDict) (k : String) (c : CsvPath)
    (hd : GroupsNodupKeys d) : GroupsNodupKeys (insertGrouped d k c) := by
  induction d with
  | nil => simp [insertGrouped, GroupsNodupKeys]
  | cons kv0 rest ih =>
    obtain ⟨k0, v0⟩ := kv0
    have hd' : (k0 :: rest.map Prod.fst).Nodup := by
      simpa [GroupsNodupKeys] using hd
    have hk0notin : k0 ∉ rest.map Prod.fst := (List.nodup_cons.mp hd').1
    have hrest : GroupsNodupKeys rest := (List.nodup_cons.mp hd').2
    by_cases hk : k0 = k
    · subst hk
      simpa [insertGrouped, GroupsNodupKeys] using hd'
    · have hnew : GroupsNodupKeys ((k0, v0) :: insertGrouped rest k c) := by
        simp only [GroupsNodupKeys, List.map_cons, List.nodup_cons]
        refine ⟨?_, ih hrest⟩
        intro hmem
        rcases mem_keys_insertGrouped rest k c k0 hmem with h | h
        · exact hk0notin h
        · exact hk h
      simpa [insertGrouped, if_neg hk, GroupsNodupKeys] using hnew

theorem groupsCand_insertGrouped (d : ExchangeDict) (k : String) (c : CsvPath)
    (hd : GroupsCand d) (hc : isCandidate c = true) :
    GroupsCand (insertGrouped d k c) := by
  induction d with
  | nil =>
    intro kv hkv p hp
    simp only [insertGrouped, List.mem_singleton] at hkv
    subst hkv
    simp only [List.mem_singleton] at hp
    subst hp
    exact hc
  | cons kv0 rest ih =>
    obtain ⟨k0, v0⟩ := kv0
    have hrest : GroupsCand rest := fun kv h => hd kv (List.mem_cons_of_mem _ h)
    by_cases hk : k0 = k
    · subst hk
      intro kv hkv p hp
      simp only [insertGrouped, if_pos rfl] at hkv
      rcases List.mem_cons.mp hkv with h | h
      · subst h
        simp only [List.mem_append, List.mem_singleton] at hp
        rcases hp with h | h
        · exact hd (k0, v0) (List.mem_cons_self _ _) p h
        · subst h; exact hc
      · exact hd kv (List.mem_cons_of_mem _ h) p hp
    · intro kv hkv p hp
      simp only [insertGrouped, if_neg hk] at hkv
      rcases List.mem_cons.mp hkv with h | h
      · subst h
        exact hd (k0, v0) (List.mem_cons_self _ _) p hp
      · exact ih hrest kv h p hp

theorem filterStep_preserves_inv (d : ExchangeDict) (p : CsvPath)
    (h1 : GroupsHomo d) (h2 : GroupsNodupKeys d) (h3 : GroupsCand d) :
    GroupsHomo (filterStep d p) ∧ GroupsNodupKeys (filterStep d p) ∧
      GroupsCand (filterStep d p) := by
  rcases p with _ | ⟨x, _ | ⟨y, _ | ⟨z, t⟩⟩⟩
  · exact ⟨h1, h2, h3⟩
  · exact ⟨h1, h2, h3⟩
  · by_cases hm : containsPredictionMarker y = true
    · simp only [filterStep, if_pos hm]
      exact ⟨h1, h2, h3⟩
    · have hm' : containsPredictionMarker y = false := by simpa using hm
      simp only [filterStep, hm', Bool.false_eq_true, if_false]
      refine ⟨groupsHomo_insertGrouped d x [x, y] h1 rfl,
        groupsNodupKeys_insertGrouped d x [x, y] h2,
        groupsCand_insertGrouped d x [x, y] h3 ?_⟩
      simp [isCandidate, hm']
  · exact ⟨h1, h2, h3⟩

theorem foldl_filterStep_inv (l : List CsvPath) :
    ∀ d : ExchangeDict, GroupsHomo d → GroupsNodupKeys d → GroupsCand d →
      GroupsHomo (l.foldl filterStep d) ∧ GroupsNodupKeys (l.foldl filterStep d) ∧
        GroupsCand (l.foldl filterStep d) := by
  induction l with
  | nil => intro d h1 h2 h3; exact ⟨h1, h2, h3⟩
  | cons p rest ih =>
    intro d h1 h2 h3
    rw [List.foldl_cons]
    obtain ⟨g1, g2, g3⟩ := filterStep_preserves_inv d p h1 h2 h3
    exact ih (filterStep d p) g1 g2 g3

/-- Filtering the flattened, per-group-truncated dictionary down to exchange
`e` recovers (the truncation of) `e`'s own group. -/
theorem flatten_take_filter (cap : Nat) (e : String) :
    ∀ d : ExchangeDict, GroupsHomo d → GroupsNodupKeys d →
      ((d.map (fun kv => kv.2.take cap)).flatten).filter
          (fun p => p.head? == some e)
        = (lookupG e d).take cap := by
  intro d
  induction d with
  | nil => intro _ _; simp [lookupG]
  | cons kv rest ih =>
    intro hhomo hnodup
    obtain ⟨k, v⟩ := kv
    have hrest_homo : GroupsHomo rest := fun kv2 h =>
      hhomo kv2 (List.mem_cons_of_mem _ h)
    have hnodup' : (k :: rest.map Prod.fst).Nodup := by
      simpa [GroupsNodupKeys] using hnodup
    have hrest_nodup : GroupsNodupKeys rest := (List.nodup_cons.mp hnodup').2
    simp only [List.map_cons, List.flatten_cons, List.filter_append]
    by_cases hk : k = e
    · subst hk
      have hall : (v.take cap).filter (fun p => p.head? == some k) = v.take cap := by
        rw [List.filter_eq_self]
        intro p hp
        have hph : p.head? = some k :=
          hhomo (k, v) (List.mem_cons_self _ _) p (List.mem_of_mem_take hp)
        simp [hph]
      have hknot : k ∉ rest.map Prod.fst := (List.nodup_cons.mp hnodup').1
      rw [hall, ih hrest_homo hrest_nodup,
        lookupG_eq_nil_of_not_mem_keys k rest hknot]
      simp [lookupG]
    · have hnone : (v.take cap).filter (fun p => p.head? == some e) = [] := by
        rw [List.filter_eq_nil_iff]
        intro p hp
        have hph : p.head? = some k :=
          hhomo (k, v) (List.mem_cons_self _ _) p (List.mem_of_mem_take hp)
        simp [hph, hk]
      rw [hnone, ih hrest_homo hrest_nodup]
      simp [lookupG, hk]

/-- C7: per exchange, `_filter_csv_list` keeps the candidates in enumeration
order truncated to the cap — the selected files of exchange `e` are exactly
the first `cap` of `e`'s candidates, so a group with at least `cap`
candidates yields exactly `cap` files and a smaller group yields all of its
candidates with no error; concretely, exchanges `A` (3 files) and `B`
(1 file) under cap 2 yield 2 files from `A` and 1 from `B`. -/
theorem filter_csv_list_per_exchange :
    (∀ (csv_list : List CsvPath) (cap : Nat) (e : String),
        (filter_csv_list csv_list cap).filter (fun p => p.head? == some e)
          = (candidatesFor e csv_list).take cap ∧
        ((filter_csv_list csv_list cap).filter (fun p => p.head? == some e)).length
          = min cap (candidatesFor e csv_list).length) ∧
    filter_csv_list
        [["A", "a1.csv"], ["A", "a2.csv"], ["A", "a3.csv"], ["B", "b1.csv"]] 2
      = [["A", "a1.csv"], ["A", "a2.csv"], ["B", "b1.csv"]] := by
  constructor
  · intro csv_list cap e
    obtain ⟨h1, h2, _⟩ := foldl_filterStep_inv csv_list []
      (by intro kv h; cases h) (by simp [GroupsNodupKeys]) (by intro kv h; cases h)
    have heq : (filter_csv_list csv_list cap).filter (fun p => p.head? == some e)
        = (candidatesFor e csv_list).take cap := by
      simp only [filter_csv_list]
      rw [flatten_take_filter cap e _ h1 h2, lookupG_foldl_filterStep csv_list [] e]
      simp [lookupG]
    refine ⟨heq, ?_⟩
    rw [heq, List.length_take, Nat.min_comm]
  · with_unfolding_all rfl

/-- C8: any discovered file whose filename contains the `Prediction_` output
marker is excluded from the selection, and the output files the pipeline
writes carry that marker (the marker plus the run timestamp are inserted
before the `.csv` extension), so a generated output is never re-selected in
a later run. -/
theorem prediction_marker_excluded :
    (∀ (csv_list : List CsvPath) (cap : Nat) (ex fn : String),
        containsPredictionMarker fn = true →
        [ex, fn] ∉ filter_csv_list csv_list cap) ∧
    bp_csv_path "A/stock1.csv" "2024-01-01_00-00-00"
      = "A/stock1_BasicPrediction_2024-01-01_00-00-00.csv" ∧
    containsPredictionMarker "stock1_BasicPrediction_2024-01-01_00-00-00.csv"
      = true := by
  refine ⟨?_, ?_, ?_⟩
  · intro csv_list cap ex fn hm hmem
    obtain ⟨_, _, h3⟩ := foldl_filterStep_inv csv_list []
      (by intro kv h; cases h) (by simp [GroupsNodupKeys]) (by intro kv h; cases h)
    simp only [filter_csv_list] at hmem
    rw [List.mem_flatten] at hmem
    obtain ⟨grp, hgrp, hmemg⟩ := hmem
    rw [List.mem_map] at hgrp
    obtain ⟨kv, hkv, hgrpeq⟩ := hgrp
    subst hgrpeq
    have hcand : isCandidate [ex, fn] = true :=
      h3 kv hkv _ (List.mem_of_mem_take hmemg)
    simp [isCandidate, hm] at hcand
  · with_unfolding_all rfl
  · with_unfolding_all rfl

/-- Witness for C8: a previously generated output file among the discovered
paths is not selected. -/
theorem prediction_marker_excluded_witness :
    ["A", "x_BasicPrediction_T.csv"] ∉
      filter_csv_list [["A", "x_BasicPrediction_T.csv"]] 2 :=
  prediction_marker_excluded.1 [["A", "x_BasicPrediction_T.csv"]] 2
    "A" "x_BasicPrediction_T.csv" (by with_unfolding_all rfl)
